import Mathlib

/-!
Verification of the BossyRust process/port/connection inventory engine.

Rust strings are modelled as `List Char`; `&str::to_lowercase` is modelled
for the ASCII range (all queries in the claims are ASCII).  Machine integers
(`u16`, `u32`) are modelled as `Nat` with explicit bounds enforced where the
source enforces them (overflow makes `parse` fail in Rust, so the parse
models reject values out of range).  `f32` values are modelled by `F32`:
either NaN or an exact rational; NaN is the only incomparable value, which
is all the claims need.  Fallible operations return `Option`/`Except`, and
outcomes of external commands (`netstat`, `lsof`, `pgrep`, `kill`, `ps`)
are passed in explicitly as `CmdResult` values or boolean/oracle arguments.
Parsers provided by the Rust standard library for floating point numbers,
`SocketAddr` and `IpAddr` are not code of this repository; they are passed
as explicit function arguments so every theorem holds for any behaviour of
those parsers.
-/

namespace BossyRust

/-! ## Characters and strings (model of Rust `str` operations) -/

/-- ASCII lower-casing of one character (model of `char::to_lowercase`
on the ASCII range, identity elsewhere). -/
def charLower (c : Char) : Char :=
  if 'A' ≤ c ∧ c ≤ 'Z' then Char.ofNat (c.toNat + 32) else c

/-- ASCII upper-casing of one character (model of `char::to_uppercase`
on the ASCII range, identity elsewhere). -/
def charUpper (c : Char) : Char :=
  if 'a' ≤ c ∧ c ≤ 'z' then Char.ofNat (c.toNat - 32) else c

/-- Model of `str::to_lowercase`. -/
def strLower (s : List Char) : List Char := s.map charLower

/-- Model of `str::to_uppercase`. -/
def strUpper (s : List Char) : List Char := s.map charUpper

/-- Model of `str::contains(&needle)`: substring containment. -/
def containsSub (hay needle : List Char) : Bool := decide (needle <:+: hay)

/-- Model of `str::strip_suffix(suf)`. -/
def stripSuffix (suf s : List Char) : Option (List Char) :=
  if suf <:+ s then some (s.take (s.length - suf.length)) else none

/-- Model of `Option::or_else` as used on the suffix-strip results. -/
def orElseOpt (a b : Option α) : Option α :=
  match a with
  | some x => some x
  | none => b

/-- Model of `str::split_once(c)`: split at the first occurrence of `c`. -/
def splitOnce (c : Char) : List Char → Option (List Char × List Char)
  | [] => none
  | a :: rest =>
    if a = c then some ([], rest)
    else (splitOnce c rest).map (fun p => (a :: p.1, p.2))

/-- Whitespace test (ASCII model of Rust `char::is_whitespace`). -/
def isWS (c : Char) : Bool := c = ' ' ∨ c = '\t' ∨ c = '\n' ∨ c = '\r'

/-- Helper for `splitWS`: accumulates the current token (reversed). -/
def splitWSAux : List Char → List Char → List (List Char)
  | [], cur => if cur.isEmpty then [] else [cur.reverse]
  | c :: rest, cur =>
    if isWS c then
      if cur.isEmpty then splitWSAux rest []
      else cur.reverse :: splitWSAux rest []
    else splitWSAux rest (c :: cur)

/-- Model of `str::split_whitespace`: non-empty tokens between runs of
whitespace. -/
def splitWS (s : List Char) : List (List Char) := splitWSAux s []

/-- Model of `str::trim` (ASCII whitespace). -/
def trim (s : List Char) : List Char :=
  ((s.dropWhile isWS).reverse.dropWhile isWS).reverse

/-- Model of `str::split([sep chars])`, keeping empty segments exactly as
Rust does. The result is always non-empty. -/
def splitAnyKeep (cs : List Char) : List Char → List (List Char)
  | [] => [[]]
  | c :: rest =>
    if cs.contains c then [] :: splitAnyKeep cs rest
    else
      match splitAnyKeep cs rest with
      | [] => [[c]]
      | seg :: more => (c :: seg) :: more

/-- Index of the last occurrence of `c` in `s` (model of `str::rfind`). -/
def rfindIdx (c : Char) (s : List Char) : Option Nat :=
  (List.range s.length).reverse.find? (fun i => s[i]? = some c)

/-! ## Decimal digits and integer parsing (model of Rust `FromStr`) -/

/-- The decimal digit characters, by value (any argument above 9 is clamped
to the digit 9; it is only ever applied to `n % 10`). -/
def digitChar (d : Nat) : Char :=
  if d = 0 then '0' else if d = 1 then '1' else if d = 2 then '2'
  else if d = 3 then '3' else if d = 4 then '4' else if d = 5 then '5'
  else if d = 6 then '6' else if d = 7 then '7' else if d = 8 then '8'
  else '9'

/-- Numeric value of a decimal digit character, if it is one. -/
def digitVal (c : Char) : Option Nat :=
  if '0' ≤ c ∧ c ≤ '9' then some (c.toNat - 48) else none

/-- Fuelled decimal rendering, most significant digit first. -/
def natStrAux : Nat → Nat → List Char → List Char
  | 0, _, acc => acc
  | fuel + 1, n, acc =>
    if n < 10 then digitChar n :: acc
    else natStrAux fuel (n / 10) (digitChar (n % 10) :: acc)

/-- Model of `u16::to_string` / `u32::to_string`: decimal rendering. -/
def natStr (n : Nat) : List Char := natStrAux (n + 1) n []

/-- Accumulating decimal reader over digit characters. -/
def digitsToNatAux : Nat → List Char → Option Nat
  | acc, [] => some acc
  | acc, c :: rest =>
    match digitVal c with
    | some d => digitsToNatAux (acc * 10 + d) rest
    | none => none

/-- All-digit strings (at least one digit) to `Nat`. -/
def digitsToNat : List Char → Option Nat
  | [] => none
  | c :: rest => digitsToNatAux 0 (c :: rest)

/-- Model of Rust unsigned-integer `FromStr`: an optional leading `+`
followed by one or more decimal digits. The bound is applied afterwards. -/
def parseNat (s : List Char) : Option Nat :=
  match s with
  | '+' :: rest => digitsToNat rest
  | _ => digitsToNat s

/-- Model of `str::parse::<u32>` (overflow is a parse failure). -/
def parseU32 (s : List Char) : Option Nat :=
  match parseNat s with
  | some n => if n < 2 ^ 32 then some n else none
  | none => none

/-- Model of `str::parse::<u16>` (overflow is a parse failure). -/
def parseU16 (s : List Char) : Option Nat :=
  match parseNat s with
  | some n => if n < 2 ^ 16 then some n else none
  | none => none

/-! ## `f32` model -/

/-- An `f32` value: NaN, or a finite value modelled as an exact rational
(NaN is the only value that is incomparable under `partial_cmp`, which is
all the verified claims depend on). -/
inductive F32 where
  | nan : F32
  | val : ℚ → F32
deriving DecidableEq

/-- Model of `f32::partial_cmp`: `None` exactly when a NaN is involved. -/
def F32.partialCmp : F32 → F32 → Option Ordering
  | F32.val a, F32.val b => some (compare a b)
  | _, _ => none

/-- Model of the `>` comparison on `f32` (false whenever NaN is involved,
as in IEEE 754). -/
def F32.gt : F32 → F32 → Bool
  | F32.val a, F32.val b => decide (b < a)
  | _, _ => false

/-! ## Process records (`src/process/info.rs`) -/

/-- Embedding of `ProcessInfo` (src/process/info.rs). -/
structure ProcessInfo where
  pid : Nat
  name : List Char
  cpu_usage : F32
  memory : Nat
  parent_pid : Option Nat
  status : List Char
  start_time : Nat
  user_id : Option Nat
  executable_path : Option (List Char)
  command_line : List (List Char)
deriving DecidableEq

/-- Embedding of `ProcessInfo::matches_search` (src/process/info.rs:40-76).
`pf` models `str::parse::<f32>` from the Rust standard library, which is
external to this repository; the memory thresholds convert `memory` bytes
exactly as the source does (`as f32` then repeated division by 1024,
modelled as exact rational division). -/
def ProcessInfo.matches_search (pf : List Char → Option F32)
    (p : ProcessInfo) (query : List Char) : Bool :=
  let q := strLower query
  match q with
  | '#' :: pidQuery =>
    match parseU32 pidQuery with
    | some searchPid => p.pid == searchPid
    | none => containsSub (strLower p.name) q
  | '>' :: resourceQuery =>
    match stripSuffix (("%").data) resourceQuery with
    | some cpuQuery =>
      match pf cpuQuery with
      | some t => F32.gt p.cpu_usage t
      | none => containsSub (strLower p.name) q
    | none =>
      match orElseOpt (stripSuffix (("gb").data) resourceQuery)
          (stripSuffix (("GB").data) resourceQuery) with
      | some memQuery =>
        match pf memQuery with
        | some t => F32.gt (F32.val ((p.memory : ℚ) / 1024 / 1024 / 1024)) t
        | none => containsSub (strLower p.name) q
      | none =>
        match orElseOpt (stripSuffix (("mb").data) resourceQuery)
            (stripSuffix (("MB").data) resourceQuery) with
        | some memQuery =>
          match pf memQuery with
          | some t => F32.gt (F32.val ((p.memory : ℚ) / 1024 / 1024)) t
          | none => containsSub (strLower p.name) q
        | none => containsSub (strLower p.name) q
  | _ => containsSub (strLower p.name) q

/-! ## Port and connection records (`src/network/ports.rs`,
`src/network/connections.rs`) -/

/-- Embedding of `Protocol` (src/network/ports.rs). -/
inductive Protocol where
  | Tcp : Protocol
  | Udp : Protocol
deriving DecidableEq

/-- Embedding of `ConnectionState` (src/network/ports.rs). -/
inductive ConnectionState where
  | Listen | Established | TimeWait | CloseWait | FinWait1 | FinWait2
  | SynSent | SynReceived | Closed | Unknown
deriving DecidableEq

/-- Embedding of `impl From<&str> for ConnectionState`
(src/network/ports.rs:39-54). -/
def connectionStateFrom (s : List Char) : ConnectionState :=
  let u := strUpper s
  if u = ("LISTEN").data then ConnectionState.Listen
  else if u = ("ESTABLISHED").data then ConnectionState.Established
  else if u = ("TIME_WAIT").data then ConnectionState.TimeWait
  else if u = ("CLOSE_WAIT").data then ConnectionState.CloseWait
  else if u = ("FIN_WAIT1").data then ConnectionState.FinWait1
  else if u = ("FIN_WAIT2").data then ConnectionState.FinWait2
  else if u = ("SYN_SENT").data then ConnectionState.SynSent
  else if u = ("SYN_RCVD").data then ConnectionState.SynReceived
  else if u = ("CLOSED").data then ConnectionState.Closed
  else ConnectionState.Unknown

/-- Model of `std::net::SocketAddr`: the IP part is kept in its displayed
textual form, which is all the code under verification reads apart from the
port. -/
structure SockAddr where
  ip : List Char
  port : Nat
deriving DecidableEq

/-- Model of `SocketAddr::to_string` (`ip:port` display form). -/
def sockAddrStr (a : SockAddr) : List Char := a.ip ++ ':' :: natStr a.port

/-- Embedding of `PortInfo` (src/network/ports.rs). -/
structure PortInfo where
  port : Nat
  protocol : Protocol
  pid : Option Nat
  process_name : Option (List Char)
  local_address : SockAddr
  remote_address : Option SockAddr
  state : ConnectionState
  service_name : Option (List Char)
deriving DecidableEq

/-- The substring fallback of `PortInfo::matches_search`
(src/network/ports.rs:79-94): process name, then service name, then the
decimal string of the port. -/
def portFallback (p : PortInfo) (q : List Char) : Bool :=
  (match p.process_name with
   | some n => containsSub (strLower n) q
   | none => false)
  || (match p.service_name with
      | some n => containsSub (strLower n) q
      | none => false)
  || containsSub (natStr p.port) q

/-- Embedding of `PortInfo::matches_search` (src/network/ports.rs:57-95). -/
def PortInfo.matches_search (p : PortInfo) (query : List Char) : Bool :=
  let q := strLower query
  match q with
  | ':' :: portQuery =>
    if portQuery.contains '-' then
      match splitOnce '-' portQuery with
      | some (startS, endS) =>
        match parseU16 startS, parseU16 endS with
        | some startPort, some endPort =>
          decide (startPort ≤ p.port ∧ p.port ≤ endPort)
        | _, _ => portFallback p q
      | none => portFallback p q
    else
      match parseU16 portQuery with
      | some searchPort => p.port == searchPort
      | none => portFallback p q
  | _ => portFallback p q

/-- Embedding of `ConnectionInfo` (src/network/connections.rs). -/
structure ConnectionInfo where
  protocol : Protocol
  local_address : SockAddr
  remote_address : SockAddr
  pid : Option Nat
  process_name : Option (List Char)
deriving DecidableEq

/-- Embedding of `ConnectionInfo::matches_search`
(src/network/connections.rs:14-36); the chain of early `return true`
statements is written as a boolean disjunction with identical value. -/
def ConnectionInfo.matches_search (c : ConnectionInfo) (query : List Char) :
    Bool :=
  let q := strLower query
  containsSub (sockAddrStr c.local_address) q
  || containsSub (sockAddrStr c.remote_address) q
  || (match c.process_name with
      | some n => containsSub (strLower n) q
      | none => false)
  || (match c.pid with
      | some pid => containsSub (natStr pid) q
      | none => false)

/-! ## External command outcomes -/

/-- Outcome of `std::process::Command::output()`: a spawn-time I/O error
(which the `?` operator propagates), or a completed run with an exit status
and stdout split into lines. -/
inductive CmdResult where
  | spawnErr : CmdResult
  | ran : Bool → List (List Char) → CmdResult
deriving DecidableEq

/-- The standard-library string parsers used by `parse_socket_addr`; they
are external to this repository, so they are passed in.  `sockAddrOfStr`
models `str::parse::<SocketAddr>`, `ipAddrOfStr` models
`str::parse::<IpAddr>` (returning the parsed IP in display form). -/
structure StdParse where
  sockAddrOfStr : List Char → Option SockAddr
  ipAddrOfStr : List Char → Option (List Char)

/-! ## Socket parsing (`src/network/ports.rs`) -/

/-- Embedding of `PortManager::parse_socket_addr`
(src/network/ports.rs:264-289). -/
def parse_socket_addr (sp : StdParse) (s : List Char) : Option SockAddr :=
  match s with
  | '*' :: _ =>
    match (splitAnyKeep (['.', ':']) s).getLast? with
    | some portStr =>
      match parseU16 portStr with
      | some port => some { ip := ("0.0.0.0").data, port := port }
      | none => none
    | none => none
  | _ =>
    match sp.sockAddrOfStr s with
    | some addr => some addr
    | none =>
      match rfindIdx '.' s with
      | some lastDot =>
        match sp.ipAddrOfStr (s.take lastDot), parseU16 (s.drop (lastDot + 1)) with
        | some ipStr, some port => some { ip := ipStr, port := port }
        | _, _ => none
      | none => none

/-- Association list standing in for the `HashMap<u16, (u32, String)>`
correlation map; `insertAssoc` overwrites, as `HashMap::insert` does. -/
def insertAssoc (k : Nat) (v : Nat × List Char) :
    List (Nat × (Nat × List Char)) → List (Nat × (Nat × List Char))
  | [] => [(k, v)]
  | (k2, v2) :: rest =>
    if k2 = k then (k, v) :: rest else (k2, v2) :: insertAssoc k v rest

/-- Lookup in the correlation map (model of `HashMap::get`). -/
def lookupAssoc : List (Nat × (Nat × List Char)) → Nat →
    Option (Nat × List Char)
  | [], _ => none
  | (k, v) :: rest, key => if k = key then some v else lookupAssoc rest key

/-- Embedding of `PortManager::get_pid_port_mapping`
(src/network/ports.rs:291-319).  `parseLsofLine` models the fixed regex
capture plus the two integer parses on one `lsof` output line, yielding
`(port, pid, processName)` when the line matches.  A spawn error of the
`lsof` command propagates (the `?` on `output()`); an unsuccessful exit
status degrades to the empty map. -/
def get_pid_port_mapping
    (parseLsofLine : List Char → Option (Nat × Nat × List Char))
    (lsof : CmdResult) : Except Unit (List (Nat × (Nat × List Char))) :=
  match lsof with
  | CmdResult.spawnErr => Except.error ()
  | CmdResult.ran false _ => Except.ok []
  | CmdResult.ran true lines =>
    Except.ok (lines.foldl
      (fun m line =>
        match parseLsofLine line with
        | some (port, pid, name) => insertAssoc port (pid, name) m
        | none => m)
      [])

/-- Embedding of `PortManager::parse_netstat_line`
(src/network/ports.rs:215-262). -/
def parse_netstat_line (sp : StdParse)
    (pidMap : List (Nat × (Nat × List Char))) (line : List Char)
    (protocol : Protocol) : Option PortInfo :=
  let parts := splitWS line
  if parts.length < 4 then none
  else if parts.headD [] = ("Active").data ∨ parts.headD [] = ("Proto").data
  then none
  else
    match parts[3]? with
    | none => none
    | some localStr =>
      let stateStr :=
        if protocol = Protocol.Tcp then (parts[5]?).getD (("UNKNOWN").data)
        else ("LISTEN").data
      match parse_socket_addr sp localStr with
      | none => none
      | some localAddr =>
        let port := localAddr.port
        let pidName :=
          ((lookupAssoc pidMap port).map
            (fun v => (some v.1, some v.2))).getD (none, none)
        let remote :=
          if 4 < parts.length ∧ (parts[4]?).getD [] ≠ ("*.*").data then
            parse_socket_addr sp ((parts[4]?).getD [])
          else none
        some { port := port, protocol := protocol, pid := pidName.1,
               process_name := pidName.2, local_address := localAddr,
               remote_address := remote,
               state := connectionStateFrom stateStr, service_name := none }

/-- Embedding of `PortManager::parse_netstat_output`
(src/network/ports.rs:202-213): builds the correlation map (propagating its
error, if any) and keeps every line that parses to a record. -/
def parse_netstat_output
    (parseLsofLine : List Char → Option (Nat × Nat × List Char))
    (sp : StdParse) (lsof : CmdResult) (outLines : List (List Char))
    (protocol : Protocol) : Except Unit (List PortInfo) :=
  match get_pid_port_mapping parseLsofLine lsof with
  | Except.error e => Except.error e
  | Except.ok pidMap =>
    Except.ok (outLines.filterMap
      (fun l => parse_netstat_line sp pidMap l protocol))

/-! ## Process termination (`src/process/killer.rs`)

Liveness over time is modelled by an oracle `alive : Nat → Bool` giving the
result of the `i`-th `is_process_running` poll of the whole kill attempt
(polls are 100 ms apart in the source).  `termOk` / `killOk` give the exit
status of the `kill -TERM` / `kill -KILL` commands. -/

/-- The polling loop shared by both kill phases: up to `n` polls starting
at global poll index `t`, returning the index of the first poll that found
the process dead, or `none` if every poll saw it alive. -/
def pollLoop (alive : Nat → Bool) (t : Nat) : Nat → Option Nat
  | 0 => none
  | n + 1 => if alive t then pollLoop alive (t + 1) n else some t

/-- Iteration count of the graceful waiting loop
(src/process/killer.rs:49, `for _ in 0..50`). -/
def gracefulIters : Nat := 50

/-- Iteration count of the forced waiting loop
(src/process/killer.rs:72, `for _ in 0..20`). -/
def forcedIters : Nat := 20

/-- Polling period in milliseconds (src/process/killer.rs:53,76,
`Duration::from_millis(100)`). -/
def pollIntervalMs : Nat := 100

/-- Result of `kill_force`: whether it returned `Ok`, and how many
liveness polls it performed. -/
structure ForceResult where
  ok : Bool
  polls : Nat
deriving DecidableEq

/-- Embedding of `ProcessKiller::kill_force` (src/process/killer.rs:61-80),
starting its polls at global poll index `t`. -/
def kill_force (killOk : Bool) (alive : Nat → Bool) (t : Nat) : ForceResult :=
  if killOk then
    match pollLoop alive t forcedIters with
    | some i => { ok := true, polls := i - t + 1 }
    | none => { ok := false, polls := forcedIters }
  else { ok := false, polls := 0 }

/-- Result of `kill_graceful`: whether it returned `Ok`, the polls done in
each phase, and whether it escalated to the forced phase. -/
structure GracefulResult where
  ok : Bool
  gracefulPolls : Nat
  escalated : Bool
  forcedPolls : Nat
deriving DecidableEq

/-- Embedding of `ProcessKiller::kill_graceful`
(src/process/killer.rs:37-59). -/
def kill_graceful (termOk killOk : Bool) (alive : Nat → Bool) :
    GracefulResult :=
  if termOk then
    match pollLoop alive 0 gracefulIters with
    | some i =>
      { ok := true, gracefulPolls := i + 1, escalated := false,
        forcedPolls := 0 }
    | none =>
      let fr := kill_force killOk alive gracefulIters
      { ok := fr.ok, gracefulPolls := gracefulIters, escalated := true,
        forcedPolls := fr.polls }
  else
    { ok := false, gracefulPolls := 0, escalated := false, forcedPolls := 0 }

/-- Option sequencing used to model
`collect::<Result<Vec<u32>, _>>()`: fails when any element fails. -/
def seqOptions : List (Option α) → Option (List α)
  | [] => some []
  | none :: _ => none
  | some a :: rest => (seqOptions rest).map (fun l => a :: l)

/-- Embedding of `ProcessKiller::find_pids_by_name`
(src/process/killer.rs:88-103): `pgrep` spawn error propagates, an
unsuccessful exit status yields the empty list, otherwise each non-blank
trimmed line must parse as a pid. -/
def find_pids_by_name (pgrep : CmdResult) : Except Unit (List Nat) :=
  match pgrep with
  | CmdResult.spawnErr => Except.error ()
  | CmdResult.ran false _ => Except.ok []
  | CmdResult.ran true lines =>
    match seqOptions ((lines.filter
        (fun l => !(trim l).isEmpty)).map (fun l => parseU32 (trim l))) with
    | some pids => Except.ok pids
    | none => Except.error ()

/-- Embedding of `ProcessKiller::kill_processes_by_name`
(src/process/killer.rs:17-29).  `kill pid` models the success of
`kill_process_by_pid(pid, force)`; a failed kill is logged and skipped,
never aborting the loop. -/
def kill_processes_by_name (pgrep : CmdResult) (kill : Nat → Bool) :
    Except Unit (List Nat) :=
  match find_pids_by_name pgrep with
  | Except.error e => Except.error e
  | Except.ok pids => Except.ok (pids.filter (fun pid => kill pid))

/-- Embedding of `ProcessKiller::find_pid_by_port`
(src/process/killer.rs:105-124): first stdout line of `lsof -t -i :port`,
trimmed and parsed. -/
def find_pid_by_port (lsof : CmdResult) : Except Unit Nat :=
  match lsof with
  | CmdResult.spawnErr => Except.error ()
  | CmdResult.ran false _ => Except.error ()
  | CmdResult.ran true lines =>
    match lines.head? with
    | none => Except.error ()
    | some l =>
      match parseU32 (trim l) with
      | some pid => Except.ok pid
      | none => Except.error ()

/-- Result of `kill_process_by_port`: the returned value and the list of
pids a kill was attempted on (in order). -/
structure PortKillResult where
  res : Except Unit Nat
  attempted : List Nat

/-- Embedding of `ProcessKiller::kill_process_by_port`
(src/process/killer.rs:31-35): resolve one pid, run the graceful protocol
on exactly that pid, return it on success.  `graceful pid` models the
success of `kill_graceful(pid)`. -/
def kill_process_by_port (lsof : CmdResult) (graceful : Nat → Bool) :
    PortKillResult :=
  match find_pid_by_port lsof with
  | Except.error e => { res := Except.error e, attempted := [] }
  | Except.ok pid =>
    if graceful pid then { res := Except.ok pid, attempted := [pid] }
    else { res := Except.error (), attempted := [pid] }

/-! ## Dashboard state pieces (`src/tui/app.rs`, `src/process/monitor.rs`) -/

/-- Embedding of `SortBy` (src/tui/app.rs:37-45). -/
inductive SortBy where
  | Name | Pid | Cpu | Memory | Port | LocalAddress | RemoteAddress
deriving DecidableEq

/-- Embedding of `SortOrder` (src/tui/app.rs:47-51). -/
inductive SortOrder where
  | Ascending | Descending
deriving DecidableEq

/-- The `AppMode::ProcessView` arm of `AppState::cycle_sort`
(src/tui/app.rs:615-623). -/
def cycle_sort_process : SortBy → SortBy
  | SortBy.Name => SortBy.Pid
  | SortBy.Pid => SortBy.Cpu
  | SortBy.Cpu => SortBy.Memory
  | SortBy.Memory => SortBy.Name
  | _ => SortBy.Name

/-- The CPU comparator of the `SortBy::Cpu` arm of
`AppState::sort_processes` (src/tui/app.rs:465-477):
`partial_cmp(..).unwrap_or(Ordering::Equal)`, reversed when descending. -/
def process_cpu_cmp (ord : SortOrder) (a b : ProcessInfo) : Ordering :=
  let cmp := (F32.partialCmp a.cpu_usage b.cpu_usage).getD Ordering.eq
  if ord = SortOrder.Ascending then cmp else cmp.swap

/-- Insertion step of a sort whose comparator may panic (`none`); a `none`
comparison aborts the whole sort, modelling the panic of
`partial_cmp(..).unwrap()` inside `sort_by`. -/
def insertM (cmp : α → α → Option Ordering) (a : α) :
    List α → Option (List α)
  | [] => some [a]
  | b :: rest =>
    match cmp a b with
    | none => none
    | some Ordering.gt => (insertM cmp a rest).map (fun l => b :: l)
    | some _ => some (a :: b :: rest)

/-- Sort with a possibly-panicking comparator (`none` = panic). -/
def sortByM (cmp : α → α → Option Ordering) : List α → Option (List α)
  | [] => some []
  | a :: rest =>
    match sortByM cmp rest with
    | none => none
    | some sorted => insertM cmp a sorted

/-- The comparator of `ProcessMonitor::get_top_cpu_processes`
(src/process/monitor.rs:37):
`b.cpu_usage.partial_cmp(&a.cpu_usage).unwrap()`; `none` models the panic
of the `unwrap` on incomparable values. -/
def top_cpu_cmp (a b : ProcessInfo) : Option Ordering :=
  F32.partialCmp b.cpu_usage a.cpu_usage

/-- Embedding of `ProcessMonitor::get_top_cpu_processes`
(src/process/monitor.rs:31-40) on a given process list: sort descending by
CPU with the unwrapping comparator, then truncate; `none` models a panic
during the sort. -/
def get_top_cpu_processes (limit : Nat) (ps : List ProcessInfo) :
    Option (List ProcessInfo) :=
  (sortByM top_cpu_cmp ps).map (fun l => l.take limit)

/-- Initial CPU history of `AppState::new` (src/tui/app.rs:163,
`vec![0; 100]`). -/
def cpuHistoryInit : List Nat := List.replicate 100 0

/-- The CPU-history update of `AppState::refresh_data`
(src/tui/app.rs:356-357): `remove(0)` then `push(sample)`. -/
def refreshCpuHistory (h : List Nat) (sample : Nat) : List Nat :=
  h.eraseIdx 0 ++ [sample]

/-! ## Shared helper lemmas -/

theorem strLower_nil : strLower [] = [] := rfl

theorem containsSub_nil (hay : List Char) : containsSub hay [] = true := by
  simp [containsSub, List.nil_infix]

theorem refreshCpuHistory_length (h : List Nat) (s : Nat)
    (hl : h.length = 100) : (refreshCpuHistory h s).length = 100 := by
  simp [refreshCpuHistory, List.length_eraseIdx, hl]

theorem foldl_refreshCpuHistory_length (samples : List Nat) :
    ∀ h : List Nat, h.length = 100 →
      (samples.foldl refreshCpuHistory h).length = 100 := by
  induction samples with
  | nil => intro h hl; simpa using hl
  | cons s rest ih =>
    intro h hl
    simpa using ih (refreshCpuHistory h s) (refreshCpuHistory_length h s hl)

theorem digitChar_ne_hash (d : Nat) : digitChar d ≠ '#' := by
  simp only [digitChar]; split_ifs <;> decide

theorem charLower_digitChar (d : Nat) : charLower (digitChar d) = digitChar d := by
  simp only [digitChar]; split_ifs <;> decide

theorem mem_natStrAux (fuel : Nat) : ∀ (n : Nat) (acc : List Char) (c : Char),
    c ∈ natStrAux fuel n acc → (∃ d, c = digitChar d) ∨ c ∈ acc := by
  induction fuel with
  | zero => intro n acc c h; exact Or.inr h
  | succ fuel ih =>
    intro n acc c h
    simp only [natStrAux] at h
    split at h
    · rcases List.mem_cons.mp h with h1 | h2
      · exact Or.inl ⟨n, h1⟩
      · exact Or.inr h2
    · rcases ih (n / 10) (digitChar (n % 10) :: acc) c h with h1 | h2
      · exact Or.inl h1
      · rcases List.mem_cons.mp h2 with h3 | h4
        · exact Or.inl ⟨n % 10, h3⟩
        · exact Or.inr h4

theorem mem_natStr (n : Nat) (c : Char) (h : c ∈ natStr n) :
    ∃ d, c = digitChar d := by
  rcases mem_natStrAux (n + 1) n [] c h with h1 | h2
  · exact h1
  · cases h2

theorem hash_not_mem_natStr (n : Nat) : '#' ∉ natStr n := by
  intro h
  rcases mem_natStr n _ h with ⟨d, hd⟩
  exact digitChar_ne_hash d hd.symm

theorem strLower_natStr (n : Nat) : strLower (natStr n) = natStr n := by
  have h : ∀ x ∈ natStr n, charLower x = id x := by
    intro x hx
    rcases mem_natStr n x hx with ⟨d, rfl⟩
    simpa using charLower_digitChar d
  simpa [strLower] using List.map_congr_left h

theorem containsSub_cons_false {hay l : List Char} {a : Char}
    (h : a ∉ hay) : containsSub hay (a :: l) = false := by
  simp only [containsSub, decide_eq_false_iff_not]
  intro hinf
  exact h (hinf.subset (List.mem_cons_self a l))

/-! ## Concrete sample records (used as witnesses and counterexamples) -/

/-- A concrete port record with a correlated pid present. -/
def samplePort : PortInfo :=
  { port := 3000, protocol := Protocol.Tcp, pid := some 1234,
    process_name := some (("node").data),
    local_address := { ip := ("127.0.0.1").data, port := 3000 },
    remote_address := none, state := ConnectionState.Listen,
    service_name := none }

/-- A concrete connection record with a correlated pid present. -/
def sampleConn : ConnectionInfo :=
  { protocol := Protocol.Tcp,
    local_address := { ip := ("127.0.0.1").data, port := 8080 },
    remote_address := { ip := ("10.0.0.1").data, port := 443 },
    pid := some 5678, process_name := some (("chrome").data) }

/-- A concrete process record. -/
def sampleProcess : ProcessInfo :=
  { pid := 1234, name := ("test_process").data, cpu_usage := F32.val (51 / 2),
    memory := 536870912, parent_pid := some 1, status := ("Running").data,
    start_time := 1234567890, user_id := some 1000,
    executable_path := none, command_line := [] }

/-! ## Claim theorems -/

/-- Claim C7: the CPU history buffer is initialized with exactly 100
entries, each refresh drops the oldest sample and appends the newest, and
after any number of refreshes the buffer still has exactly 100 entries. -/
theorem C7_cpu_history_invariant :
    cpuHistoryInit.length = 100 ∧
    (∀ h s, h.length = 100 → refreshCpuHistory h s = h.tail ++ [s]) ∧
    ∀ samples : List Nat,
      (samples.foldl refreshCpuHistory cpuHistoryInit).length = 100 := by
  refine ⟨by simp [cpuHistoryInit], ?_, ?_⟩
  · intro h s _
    cases h with
    | nil => rfl
    | cons a rest => rfl
  · intro samples
    exact foldl_refreshCpuHistory_length samples cpuHistoryInit
      (by simp [cpuHistoryInit])

/-- Claim C7 witness: after three concrete refreshes the history still has
100 entries. -/
theorem C7_cpu_history_invariant_witness :
    (([3, 7, 9] : List Nat).foldl refreshCpuHistory cpuHistoryInit).length
      = 100 :=
  C7_cpu_history_invariant.2.2 [3, 7, 9]

/-- Claim C8 counterexample: starting from the `Port` sort key (reachable
in process view, since switching modes never resets `sort_by`), four
applications of the process-view cycle give `Memory`, not `Port`. -/
theorem C8_counterexample :
    cycle_sort_process (cycle_sort_process (cycle_sort_process
      (cycle_sort_process SortBy.Port))) = SortBy.Memory ∧
    SortBy.Memory ≠ SortBy.Port := by
  exact ⟨rfl, by decide⟩

/-- Claim C8 (amended): for every starting sort key among the four process
sort keys `Name`, `Pid`, `Cpu`, `Memory`, applying the process-view
cycle-sort four times returns the key to its original value, following the
cycle Name → Pid → Cpu → Memory → Name; keys outside this cycle enter it
at `Name` instead. -/
theorem C8_process_sort_cycle (k : SortBy)
    (h : k = SortBy.Name ∨ k = SortBy.Pid ∨ k = SortBy.Cpu ∨
      k = SortBy.Memory) :
    cycle_sort_process (cycle_sort_process (cycle_sort_process
      (cycle_sort_process k))) = k := by
  rcases h with h | h | h | h <;> subst h <;> rfl

/-- Claim C8 witness: the cycle property at the concrete key `Name`. -/
theorem C8_process_sort_cycle_witness :
    cycle_sort_process (cycle_sort_process (cycle_sort_process
      (cycle_sort_process SortBy.Name))) = SortBy.Name :=
  C8_process_sort_cycle SortBy.Name (Or.inl rfl)

/-- Claim C9: the empty query matches every process, port and connection
record (the substring fallback's containment test with the empty string
always succeeds), so an empty search filters out no record. -/
theorem C9_empty_query_matches (pf : List Char → Option F32)
    (p : ProcessInfo) (pt : PortInfo) (c : ConnectionInfo) :
    p.matches_search pf [] = true ∧ pt.matches_search [] = true ∧
    c.matches_search [] = true := by
  refine ⟨?_, ?_, ?_⟩
  · simp [ProcessInfo.matches_search, strLower_nil, containsSub_nil]
  · simp [PortInfo.matches_search, strLower_nil, portFallback,
      containsSub_nil]
  · simp [ConnectionInfo.matches_search, strLower_nil, containsSub_nil]

/-- Claim C2 counterexample: a port record and a connection record, each
with a correlated pid present, on which the query `#<pid digits>` does NOT
match — `PortInfo::matches_search` and `ConnectionInfo::matches_search`
have no `#` handling, so the query only reaches the substring fallback. -/
theorem C2_counterexample :
    samplePort.pid = some 1234 ∧
    PortInfo.matches_search samplePort (("#1234").data) = false ∧
    sampleConn.pid = some 5678 ∧
    ConnectionInfo.matches_search sampleConn (("#5678").data) = false := by
  refine ⟨rfl, by decide, rfl, by decide⟩

/-- Claim C2 (amended): `#<digits>` performs an exact pid match only on
process records.  `PortInfo::matches_search` never reads the correlated
pid at all (its result is independent of the `pid` field), and on a
connection record a `#<digits>` query can only match as a literal
substring, so as long as no searched field contains the character `#`,
the query `#` ++ digits of the correlated pid returns false even though
the pid is present and equal. -/
theorem C2_no_pid_match_on_ports_and_connections
    (pt : PortInfo) (q : List Char) (pid1 pid2 : Option Nat)
    (c : ConnectionInfo) (n : Nat) :
    (PortInfo.matches_search { pt with pid := pid1 } q =
      PortInfo.matches_search { pt with pid := pid2 } q) ∧
    (c.pid = some n →
      ('#') ∉ sockAddrStr c.local_address →
      ('#') ∉ sockAddrStr c.remote_address →
      (∀ s, c.process_name = some s → ('#') ∉ strLower s) →
      ConnectionInfo.matches_search c ('#' :: natStr n) = false) := by
  constructor
  · rfl
  · intro hpid hlocal hremote hname
    have h3 : charLower '#' = '#' := by decide
    have hq : strLower ('#' :: natStr n) = '#' :: natStr n := by
      simp only [strLower, List.map_cons, h3]
      rw [← strLower, strLower_natStr]
    simp only [ConnectionInfo.matches_search, hq, hpid]
    rw [containsSub_cons_false hlocal, containsSub_cons_false hremote,
      containsSub_cons_false (hash_not_mem_natStr n)]
    cases hc : c.process_name with
    | none => simp
    | some s => simp [containsSub_cons_false (hname s hc)]

/-- Claim C2 amended witness: the pid-independence at a concrete port
record and the non-match at the concrete connection record. -/
theorem C2_no_pid_match_witness :
    (PortInfo.matches_search { samplePort with pid := some 1 } (("no").data) =
      PortInfo.matches_search { samplePort with pid := none } (("no").data)) ∧
    ConnectionInfo.matches_search sampleConn ('#' :: natStr 5678) = false := by
  constructor
  · exact (C2_no_pid_match_on_ports_and_connections samplePort (("no").data)
      (some 1) none sampleConn 5678).1
  · refine (C2_no_pid_match_on_ports_and_connections samplePort (("no").data)
      (some 1) none sampleConn 5678).2 rfl (by decide) (by decide) ?_
    intro s hs
    simp only [sampleConn] at hs
    rw [Option.some.injEq] at hs
    subst hs
    decide

/-- Claim C1: when a query starts with a recognized prefix (`#` or `>` for
process records, `:` for port records) but the remainder fails to parse as
the expected numeric shape, `matches_search` does not return false
immediately: it evaluates the plain substring fallback with the full
lower-cased query, prefix character included — for processes the substring
test against the process name, for ports the fallback over process name,
service name and port string. -/
theorem C1_malformed_prefix_falls_through (pf : List Char → Option F32)
    (p : ProcessInfo) (pt : PortInfo) (q : List Char) :
    (∀ rest, strLower q = '#' :: rest → parseU32 rest = none →
      p.matches_search pf q = containsSub (strLower p.name) (strLower q)) ∧
    (∀ rest, strLower q = '>' :: rest →
      (∀ s, stripSuffix (("%").data) rest = some s → pf s = none) →
      (∀ s, orElseOpt (stripSuffix (("gb").data) rest)
          (stripSuffix (("GB").data) rest) = some s → pf s = none) →
      (∀ s, orElseOpt (stripSuffix (("mb").data) rest)
          (stripSuffix (("MB").data) rest) = some s → pf s = none) →
      p.matches_search pf q = containsSub (strLower p.name) (strLower q)) ∧
    (∀ rest, strLower q = ':' :: rest →
      (rest.contains '-' = true →
        ∀ s e, splitOnce '-' rest = some (s, e) →
          parseU16 s = none ∨ parseU16 e = none) →
      (rest.contains '-' = false → parseU16 rest = none) →
      pt.matches_search q = portFallback pt (strLower q)) := by
  refine ⟨?_, ?_, ?_⟩
  · intro rest hq hparse
    simp only [ProcessInfo.matches_search, hq, hparse]
  · intro rest hq hpc hgb hmb
    simp only [ProcessInfo.matches_search, hq]
    cases hps : stripSuffix (("%").data) rest with
    | some s => simp [hpc s hps]
    | none =>
      simp only []
      cases hg : orElseOpt (stripSuffix (("gb").data) rest)
          (stripSuffix (("GB").data) rest) with
      | some s => simp [hg, hgb s hg]
      | none =>
        cases hm : orElseOpt (stripSuffix (("mb").data) rest)
            (stripSuffix (("MB").data) rest) with
        | some s => simp [hg, hm, hmb s hm]
        | none => simp [hg, hm]
  · intro rest hq hrange hexact
    simp only [PortInfo.matches_search, hq]
    cases hcd : rest.contains '-' with
    | true =>
      simp only [hcd, if_true]
      cases hsp : splitOnce '-' rest with
      | none => simp
      | some pr =>
        obtain ⟨s, e⟩ := pr
        rcases hrange hcd s e hsp with hn | hn <;>
          cases hps : parseU16 s <;> cases hpe : parseU16 e <;>
            simp_all
    | false =>
      simp only [hcd, if_false, Bool.false_eq_true]
      simp [hexact hcd]

/-- The always-failing float parser, used to instantiate the external
`str::parse::<f32>` in concrete witnesses. -/
def pfNone : List Char → Option F32 := fun _ => none

/-- Claim C1 witness: the fallthrough at the concrete queries `#abc`,
`>abc%` and `:abc`. -/
theorem C1_malformed_prefix_witness :
    ProcessInfo.matches_search pfNone sampleProcess (("#abc").data) =
      containsSub (strLower sampleProcess.name)
        (strLower (("#abc").data)) ∧
    ProcessInfo.matches_search pfNone sampleProcess ((">abc%").data) =
      containsSub (strLower sampleProcess.name)
        (strLower ((">abc%").data)) ∧
    PortInfo.matches_search samplePort ((":abc").data) =
      portFallback samplePort (strLower ((":abc").data)) := by
  refine ⟨?_, ?_, ?_⟩
  · exact (C1_malformed_prefix_falls_through pfNone sampleProcess samplePort
      (("#abc").data)).1 (("abc").data) (by decide) (by decide)
  · exact (C1_malformed_prefix_falls_through pfNone sampleProcess samplePort
      ((">abc%").data)).2.1 (("abc%").data) (by decide)
      (fun s _ => rfl) (fun s _ => rfl) (fun s _ => rfl)
  · exact (C1_malformed_prefix_falls_through pfNone sampleProcess samplePort
      ((":abc").data)).2.2 (("abc").data) (by decide)
      (fun hc => absurd hc (by decide)) (fun _ => by decide)

theorem pollLoop_some (alive : Nat → Bool) :
    ∀ (n t i : Nat), pollLoop alive t n = some i →
      t ≤ i ∧ i < t + n ∧ alive i = false := by
  intro n
  induction n with
  | zero => intro t i h; cases h
  | succ n ih =>
    intro t i h
    simp only [pollLoop] at h
    by_cases ha : alive t = true
    · rw [if_pos ha] at h
      obtain ⟨h1, h2, h3⟩ := ih (t + 1) i h
      exact ⟨by omega, by omega, h3⟩
    · rw [if_neg ha] at h
      cases h
      exact ⟨Nat.le_refl t, by omega, by simpa using ha⟩

theorem pollLoop_none (alive : Nat → Bool) :
    ∀ (n t : Nat), pollLoop alive t n = none →
      ∀ j, t ≤ j → j < t + n → alive j = true := by
  intro n
  induction n with
  | zero => intro t _ j h1 h2; omega
  | succ n ih =>
    intro t h j h1 h2
    simp only [pollLoop] at h
    by_cases ha : alive t = true
    · rw [if_pos ha] at h
      rcases Nat.eq_or_lt_of_le h1 with rfl | hlt
      · exact ha
      · exact ih (t + 1) h j hlt (by omega)
    · rw [if_neg ha] at h
      cases h

/-- Claim C4: every kill attempt terminates after a bounded amount of
polling.  The graceful phase polls at most `gracefulIters = 50` times
(5-second budget at the fixed 100 ms period) and succeeds immediately,
without escalating, as soon as a poll sees the process dead; escalation
happens only after all 50 polls saw it alive, and the forced phase then
polls at most `forcedIters = 20` more times (2-second budget) and reports
failure if the process was still alive at every poll — a total polling
time of at most 7 seconds, well under 10. -/
theorem C4_kill_attempt_bounded (termOk killOk : Bool)
    (alive : Nat → Bool) :
    ((kill_graceful termOk killOk alive).gracefulPolls ≤ gracefulIters ∧
     (kill_graceful termOk killOk alive).forcedPolls ≤ forcedIters ∧
     gracefulIters * pollIntervalMs = 5000 ∧
     forcedIters * pollIntervalMs = 2000 ∧
     (gracefulIters + forcedIters) * pollIntervalMs < 10000) ∧
    (termOk = true → (∃ i, i < gracefulIters ∧ alive i = false) →
      (kill_graceful termOk killOk alive).ok = true ∧
      (kill_graceful termOk killOk alive).escalated = false) ∧
    ((kill_graceful termOk killOk alive).escalated = true →
      ∀ j, j < gracefulIters → alive j = true) ∧
    (termOk = true →
      (∀ j, j < gracefulIters + forcedIters → alive j = true) →
      (kill_graceful termOk killOk alive).ok = false ∧
      (kill_graceful termOk killOk alive).escalated = true) := by
  cases termOk with
  | false =>
    refine ⟨?_, ?_, ?_, ?_⟩
    · simp [kill_graceful, gracefulIters, forcedIters, pollIntervalMs]
    · intro h; cases h
    · simp [kill_graceful]
    · intro h; cases h
  | true =>
    cases hpl : pollLoop alive 0 gracefulIters with
    | some i =>
      obtain ⟨_, hi2, hi3⟩ := pollLoop_some alive gracefulIters 0 i hpl
      refine ⟨?_, ?_, ?_, ?_⟩
      · simp only [kill_graceful, if_true, hpl]
        refine ⟨?_, ?_⟩
        · show i + 1 ≤ gracefulIters
          simp only [gracefulIters] at hi2 ⊢
          omega
        · simp [gracefulIters, forcedIters, pollIntervalMs]
      · intro _ _
        simp [kill_graceful, hpl]
      · simp [kill_graceful, hpl]
      · intro _ hall
        exact absurd (hall i (by omega)) (by simp [hi3])
    | none =>
      have hforce : (kill_force killOk alive gracefulIters).polls ≤
          forcedIters ∧
          ((∀ j, j < gracefulIters + forcedIters → alive j = true) →
            (kill_force killOk alive gracefulIters).ok = false) := by
        cases killOk with
        | false => exact ⟨by simp [kill_force], by simp [kill_force]⟩
        | true =>
          cases hfl : pollLoop alive gracefulIters forcedIters with
          | some i =>
            obtain ⟨hi1, hi2, hi3⟩ :=
              pollLoop_some alive forcedIters gracefulIters i hfl
            refine ⟨?_, ?_⟩
            · simp only [kill_force, if_true, hfl]
              omega
            · intro hall
              exact absurd (hall i (by omega)) (by simp [hi3])
          | none =>
            exact ⟨by simp [kill_force, hfl], fun _ => by
              simp [kill_force, hfl]⟩
      refine ⟨?_, ?_, ?_, ?_⟩
      · simp only [kill_graceful, if_true, hpl]
        exact ⟨Nat.le_refl _, hforce.1,
          by simp [gracefulIters, forcedIters, pollIntervalMs]⟩
      · intro _ hex
        obtain ⟨i, hi1, hi2⟩ := hex
        have := pollLoop_none alive gracefulIters 0 hpl i (by omega)
          (by omega)
        simp [this] at hi2
      · intro _ j hj
        exact pollLoop_none alive gracefulIters 0 hpl j (by omega) (by omega)
      · intro _ hall
        refine ⟨?_, ?_⟩
        · simpa [kill_graceful, hpl] using hforce.2 hall
        · simp [kill_graceful, hpl]

/-- A concrete liveness oracle: the process is alive for the first three
polls and dead from the fourth on. -/
def aliveThree : Nat → Bool := fun i => decide (i < 3)

/-- Claim C4 witness: with both signals delivered and a process that dies
at the fourth poll, the attempt succeeds without escalating, within the
poll bounds. -/
theorem C4_kill_attempt_bounded_witness :
    (kill_graceful true true aliveThree).ok = true ∧
    (kill_graceful true true aliveThree).escalated = false ∧
    (kill_graceful true true aliveThree).gracefulPolls ≤ gracefulIters := by
  have h := C4_kill_attempt_bounded true true aliveThree
  obtain ⟨hok, hesc⟩ := h.2.1 rfl ⟨3, by decide, by decide⟩
  exact ⟨hok, hesc, h.1.1⟩

/-- Claim C5: `kill_processes_by_name` returns a success value containing
exactly the pids whose individual kill attempt succeeded — a failed pid is
excluded without aborting the rest — and when the name lookup reports no
match (unsuccessful `pgrep` exit) the result is an empty success list, not
an error. -/
theorem C5_kill_by_name_batch (pgrep : CmdResult) (kill : Nat → Bool)
    (pids : List Nat) :
    (find_pids_by_name pgrep = Except.ok pids →
      kill_processes_by_name pgrep kill =
        Except.ok (pids.filter (fun pid => kill pid))) ∧
    (∀ outLines,
      kill_processes_by_name (CmdResult.ran false outLines) kill =
        Except.ok []) := by
  constructor
  · intro h
    simp [kill_processes_by_name, h]
  · intro outLines
    simp [kill_processes_by_name, find_pids_by_name]

/-- Claim C5 witness: a concrete lookup returning pids 10, 20 and 30 with
the kill of 20 failing yields exactly `[10, 30]`, and a failed lookup
yields the empty success list. -/
theorem C5_kill_by_name_batch_witness :
    kill_processes_by_name
        (CmdResult.ran true [("10").data, ("20").data, ("30").data])
        (fun pid => pid ≠ 20) = Except.ok [10, 30] ∧
    kill_processes_by_name (CmdResult.ran false []) (fun _ => true) =
      Except.ok [] := by
  constructor
  · have h := (C5_kill_by_name_batch
      (CmdResult.ran true [("10").data, ("20").data, ("30").data])
      (fun pid => pid ≠ 20) [10, 20, 30]).1 rfl
    rw [h]
    rfl
  · exact (C5_kill_by_name_batch (CmdResult.ran false [])
      (fun _ => true) []).2 []

/-- Claim C10: `kill_process_by_port` resolves the pid from the first line
of the port lookup output only; whatever the lookup output is, at most one
kill attempt is made per call, and when the first line parses and the
graceful kill succeeds, exactly that one pid is signalled and returned. -/
theorem C10_kill_by_port_first_line (lsof : CmdResult)
    (graceful : Nat → Bool) (first : List Char) (rest : List (List Char))
    (pid : Nat) :
    (kill_process_by_port lsof graceful).attempted.length ≤ 1 ∧
    (lsof = CmdResult.ran true (first :: rest) →
      parseU32 (trim first) = some pid →
      (kill_process_by_port lsof graceful).attempted = [pid] ∧
      (graceful pid = true →
        (kill_process_by_port lsof graceful).res = Except.ok pid)) := by
  constructor
  · cases hf : find_pid_by_port lsof with
    | error e => simp [kill_process_by_port, hf]
    | ok p =>
      by_cases hg : graceful p = true <;>
        simp [kill_process_by_port, hf, hg]
  · intro hls hparse
    have hf : find_pid_by_port lsof = Except.ok pid := by
      simp [find_pid_by_port, hls, hparse]
    by_cases hg : graceful pid = true
    · simp [kill_process_by_port, hf, hg]
    · simp [kill_process_by_port, hf, hg]

/-- Claim C10 witness: an `lsof -t` output with two lines (`41` and `42`)
kills only pid 41, the pid of the first line. -/
theorem C10_kill_by_port_first_line_witness :
    (kill_process_by_port (CmdResult.ran true [("41").data, ("42").data])
        (fun _ => true)).attempted = [41] ∧
    (kill_process_by_port (CmdResult.ran true [("41").data, ("42").data])
        (fun _ => true)).res = Except.ok 41 := by
  have h := (C10_kill_by_port_first_line
    (CmdResult.ran true [("41").data, ("42").data]) (fun _ => true)
    (("41").data) [("42").data] 41).2 rfl (by decide)
  exact ⟨h.1, h.2 rfl⟩

theorem insertM_total {α : Type} (cmp : α → α → Option Ordering) (a : α) :
    ∀ l : List α, (∀ b ∈ l, cmp a b ≠ none) →
      ∃ l', insertM cmp a l = some l' ∧ ∀ x ∈ l', x = a ∨ x ∈ l := by
  intro l
  induction l with
  | nil =>
    intro _
    exact ⟨[a], rfl, by simp⟩
  | cons b rest ih =>
    intro h
    cases hc : cmp a b with
    | none => exact absurd hc (h b (List.mem_cons_self b rest))
    | some o =>
      cases o with
      | gt =>
        obtain ⟨l', hl', hmem⟩ := ih (fun x hx => h x (List.mem_cons_of_mem b hx))
        refine ⟨b :: l', by simp [insertM, hc, hl'], ?_⟩
        intro x hx
        rcases List.mem_cons.mp hx with rfl | hx2
        · exact Or.inr (List.mem_cons_self x rest)
        · rcases hmem x hx2 with h1 | h2
          · exact Or.inl h1
          · exact Or.inr (List.mem_cons_of_mem b h2)
      | lt => exact ⟨a :: b :: rest, by simp [insertM, hc], by simp⟩
      | eq => exact ⟨a :: b :: rest, by simp [insertM, hc], by simp⟩

theorem sortByM_total {α : Type} (cmp : α → α → Option Ordering) :
    ∀ l : List α, (∀ a ∈ l, ∀ b ∈ l, cmp a b ≠ none) →
      ∃ l', sortByM cmp l = some l' ∧ ∀ x ∈ l', x ∈ l := by
  intro l
  induction l with
  | nil => intro _; exact ⟨[], rfl, by simp⟩
  | cons a rest ih =>
    intro h
    obtain ⟨sorted, hs, hsub⟩ := ih (fun x hx y hy =>
      h x (List.mem_cons_of_mem a hx) y (List.mem_cons_of_mem a hy))
    obtain ⟨l', hl', hmem⟩ := insertM_total cmp a sorted (fun b hb =>
      h a (List.mem_cons_self a rest) b
        (List.mem_cons_of_mem a (hsub b hb)))
    refine ⟨l', by simp [sortByM, hs, hl'], ?_⟩
    intro x hx
    rcases hmem x hx with rfl | hx2
    · exact List.mem_cons_self x rest
    · exact List.mem_cons_of_mem a (hsub x hx2)

/-- A process record whose `cpu_usage` is NaN. -/
def procNaN : ProcessInfo :=
  { sampleProcess with pid := 1, cpu_usage := F32.nan }

/-- A second process record whose `cpu_usage` is NaN. -/
def procNaN2 : ProcessInfo :=
  { sampleProcess with pid := 2, cpu_usage := F32.nan }

/-- Claim C6 counterexample: `ProcessMonitor::get_top_cpu_processes` is a
CPU-ordered operation, yet on two records with incomparable (NaN)
`cpu_usage` its `partial_cmp(..).unwrap()` comparator panics (modelled as
`none`) instead of treating them as equal. -/
theorem C6_counterexample :
    top_cpu_cmp procNaN procNaN2 = none ∧
    get_top_cpu_processes 10 [procNaN, procNaN2] = none := by
  exact ⟨rfl, rfl⟩

/-- Claim C6 (amended): the CPU sort of the filtered process list
(`AppState::sort_processes`) treats incomparable (NaN) comparisons as
equal in both sort orders and therefore never fails; but
`ProcessMonitor::get_top_cpu_processes` unwraps the partial comparison,
so it panics on incomparable values and is panic-free only when no
process in the list has NaN `cpu_usage`. -/
theorem C6_nan_cpu_comparisons (ord : SortOrder) (a b : ProcessInfo)
    (ps : List ProcessInfo) (limit : Nat) :
    (F32.partialCmp a.cpu_usage b.cpu_usage = none →
      process_cpu_cmp ord a b = Ordering.eq) ∧
    ((∀ p ∈ ps, p.cpu_usage ≠ F32.nan) →
      (get_top_cpu_processes limit ps).isSome = true) := by
  constructor
  · intro h
    cases ord <;> simp [process_cpu_cmp, h, Ordering.swap]
  · intro h
    have hcmp : ∀ x ∈ ps, ∀ y ∈ ps, top_cpu_cmp x y ≠ none := by
      intro x hx y hy
      cases hxc : x.cpu_usage with
      | nan => exact absurd hxc (h x hx)
      | val qx =>
        cases hyc : y.cpu_usage with
        | nan => exact absurd hyc (h y hy)
        | val qy => simp [top_cpu_cmp, F32.partialCmp, hxc, hyc]
    obtain ⟨l', hl', _⟩ := sortByM_total top_cpu_cmp ps hcmp
    simp [get_top_cpu_processes, hl']

/-- Claim C6 amended witness: a NaN–NaN comparison in the dashboard sort is
`Ordering.eq`, and the top-CPU accessor succeeds on a NaN-free list. -/
theorem C6_nan_cpu_comparisons_witness :
    process_cpu_cmp SortOrder.Descending procNaN procNaN2 = Ordering.eq ∧
    (get_top_cpu_processes 10 [sampleProcess]).isSome = true := by
  constructor
  · exact (C6_nan_cpu_comparisons SortOrder.Descending procNaN procNaN2
      [] 0).1 rfl
  · refine (C6_nan_cpu_comparisons SortOrder.Descending procNaN procNaN2
      [sampleProcess] 10).2 ?_
    intro p hp
    rcases List.mem_singleton.mp hp with rfl
    simp [sampleProcess]

theorem parse_netstat_line_empty_map (sp : StdParse) (line : List Char)
    (protocol : Protocol) (r : PortInfo)
    (h : parse_netstat_line sp [] line protocol = some r) :
    r.pid = none ∧ r.process_name = none := by
  simp only [parse_netstat_line, lookupAssoc] at h
  split at h
  · cases h
  · split at h
    · cases h
    · split at h
      · cases h
      · split at h
        · cases h
        · cases h
          exact ⟨rfl, rfl⟩

/-- The always-failing `lsof`-line model, for concrete instantiation. -/
def plNone : List Char → Option (Nat × Nat × List Char) := fun _ => none

/-- Standard-library parsers that always fail, for concrete
instantiation. -/
def spNone : StdParse :=
  { sockAddrOfStr := fun _ => none, ipAddrOfStr := fun _ => none }

/-- Claim C3 counterexample: a spawn-time I/O failure of the correlation
command (`lsof`) — e.g. the binary being absent — propagates through the
`?` operator in `get_pid_port_mapping`, making `parse_netstat_output`
(and hence `get_all_ports`) return an error rather than degrading to an
empty map. -/
theorem C3_counterexample :
    parse_netstat_output plNone spNone CmdResult.spawnErr []
      Protocol.Tcp = Except.error () := rfl

/-- Claim C3 (amended): when the correlation command runs but exits
unsuccessfully, the correlation map defaults to empty and socket parsing
still succeeds, with every returned port record's `pid` and
`process_name` unset; but a spawn-time I/O error of the correlation
command propagates and makes `parse_netstat_output` return an error. -/
theorem C3_correlation_failure_degrades :
    (∀ (pl : List Char → Option (Nat × Nat × List Char))
        (stdout : List (List Char)),
      get_pid_port_mapping pl (CmdResult.ran false stdout) =
        Except.ok []) ∧
    (∀ (pl : List Char → Option (Nat × Nat × List Char)) (sp : StdParse)
        (stdout outLines : List (List Char)) (protocol : Protocol),
      ∃ rs, parse_netstat_output pl sp (CmdResult.ran false stdout)
          outLines protocol = Except.ok rs ∧
        ∀ r ∈ rs, r.pid = none ∧ r.process_name = none) ∧
    (∀ (pl : List Char → Option (Nat × Nat × List Char)) (sp : StdParse)
        (outLines : List (List Char)) (protocol : Protocol),
      parse_netstat_output pl sp CmdResult.spawnErr outLines protocol =
        Except.error ()) := by
  refine ⟨fun pl stdout => rfl, ?_, fun pl sp outLines protocol => rfl⟩
  intro pl sp stdout outLines protocol
  refine ⟨outLines.filterMap
    (fun l => parse_netstat_line sp [] l protocol), rfl, ?_⟩
  intro r hr
  obtain ⟨l, _, hl⟩ := List.mem_filterMap.mp hr
  exact parse_netstat_line_empty_map sp l protocol r hl

/-- Claim C3 amended witness: the degraded-but-successful outcome and the
fatal spawn-error outcome at concrete inputs. -/
theorem C3_correlation_failure_witness :
    get_pid_port_mapping plNone (CmdResult.ran false []) = Except.ok [] ∧
    parse_netstat_output plNone spNone CmdResult.spawnErr []
      Protocol.Udp = Except.error () :=
  ⟨C3_correlation_failure_degrades.1 plNone [],
    C3_correlation_failure_degrades.2.2 plNone spNone [] Protocol.Udp⟩

end BossyRust
